import Mathlib

/-!
Verification of the research-agent system (src/research-agent/main.py)
against its natural-language specification.

The adapter (`exa_web_search`), the module-level client initialization and
the instruction string are embedded from the source.  The agent
orchestration loop, the configuration loader and the instruction-template
substitution are code of the repository that is not under src/ (the loop
lives in the `agents` runtime invoked at main.py:57, the template engine in
the repository's other variants); those are modelled from the spec, each
marked `Modelled from the spec:` in its doc comment.
-/

namespace ResearchAgent

/-! ## Data model: search results and requests -/

/-- One entry of a search result: source URL, title, highlight snippets. -/
structure SearchEntry where
  url : String
  title : String
  highlights : List String
  deriving DecidableEq, Repr

/-- Outcome of one call to the external search capability: an ordered list
of entries, or a failure carrying a cause. -/
inductive ToolOutcome where
  | ok (results : List SearchEntry)
  | err (cause : String)
  deriving DecidableEq, Repr

/-- An outbound request as issued by `exa_web_search`
(main.py:25): the credential held by the client, the query forwarded
verbatim, and the fixed parameters `type` and `highlights`. -/
structure SearchRequest where
  apiKey : Option String
  query : String
  type : String
  highlights : Bool
  deriving DecidableEq, Repr

/-! ## Module-level client (main.py:14-19)

`exa = Exa(api_key=os.getenv("EXA_API_KEY"))` constructs the client once
at import time; `current_datetime = time.strftime(...)` is read once too.
The environment is a partial map from variable names to values. -/

/-- The Exa client: holds the credential it was constructed with
(main.py:18). -/
structure Exa where
  api_key : Option String
  deriving DecidableEq, Repr

/-- The module-level state bound at import time (main.py:18-19). -/
structure ModuleState where
  exa : Exa
  current_datetime : String
  deriving DecidableEq, Repr

/-- Import-time initialization: the client is built from `EXA_API_KEY` in
the environment present at import (main.py:18); the datetime is sampled
once (main.py:19). -/
def importModule (env : String → Option String) (now : String) : ModuleState :=
  { exa := { api_key := env "EXA_API_KEY" }, current_datetime := now }

/-- A world in which the environment can change after import while the
module state persists. -/
structure World where
  env : String → Option String
  module : ModuleState

/-- Importing the module in an environment yields the initial world. -/
def importWorld (env : String → Option String) (now : String) : World :=
  { env := env, module := importModule env now }

/-- Mutating the process environment after import: the module state, having
been bound at import time, is untouched (main.py:18 runs only once). -/
def setEnv (w : World) (env : String → Option String) : World :=
  { w with env := env }

/-! ## Search Tool Adapter (main.py:22-25) -/

/-- The external search capability, opaque to the program: a response for
every outbound request. -/
def Service : Type := SearchRequest → ToolOutcome

/-- `exa.search_and_contents(query=..., type=..., highlights=...)`
(main.py:25): issues a single outbound request built from the client's
credential and the given parameters, and returns the service's response
verbatim together with the list of requests issued. -/
def search_and_contents (service : Service) (client : Exa)
    (query : String) (ty : String) (hl : Bool) :
    ToolOutcome × List SearchRequest :=
  let req : SearchRequest :=
    { apiKey := client.api_key, query := query, type := ty, highlights := hl }
  (service req, [req])

/-- Result of one adapter call: the response handed back to the caller, the
outbound requests issued during the call, and the module state after the
call. -/
structure CallResult where
  response : ToolOutcome
  requests : List SearchRequest
  module : ModuleState
  deriving Repr

/-- The adapter `exa_web_search` (main.py:22-25): forwards the query to
`exa.search_and_contents` with `type="auto"` and `highlights=True`, using
the module-level client, and returns the response unmodified.  The body has
no branch, no retry, no cache and no assignment. -/
def exa_web_search (service : Service) (m : ModuleState) (query : String) :
    CallResult :=
  let (resp, reqs) := search_and_contents service m.exa query "auto" true
  { response := resp, requests := reqs, module := m }

/-! ## Prompt/Instruction Builder (main.py:44-51) -/

/-- The instruction string of main.py:44-51: an f-string over the
datetime sampled at import. -/
def agentInstructions (current_datetime : String) : String :=
  "You are a helpful research assistant that can search the web for " ++
  "information using the exa_web_search tool when needed. " ++
  "After reviewing initial results, decide on follow-up searches to gather " ++
  "more information, performing two to three rounds and up to ten if " ++
  "necessary. Provide comprehensive, well-structured responses in markdown, " ++
  "and answer in Chinese. Current date and time: " ++ current_datetime

/-! ## Instruction-template substitution

The repository's template engine (`\x7b\x7bkey\x7d\x7d` markers) is not
under src/; it is modelled from the spec (section 4.2).  Strings are
embedded as lists of characters. -/

/-- Modelled from the spec: lookup of a key in the `variables` mapping of
the Prompt/Instruction Builder contract
`build(templateSource, variables)`. -/
def lookupVar (vars : List (List Char × List Char)) (k : List Char) :
    Option (List Char) :=
  match vars with
  | [] => none
  | (k', v) :: rest => if k' = k then some v else lookupVar rest k

/-- Modelled from the spec: scanning for the closing `\x7d\x7d` of a
marker.  Returns the key (characters before the first `\x7d\x7d`) and the
remainder after it, or `none` when the marker is never closed. -/
def takeKey : List Char → Option (List Char × List Char)
  | [] => none
  | c :: rest =>
    if c = '}' then
      match rest with
      | [] => none
      | c' :: rest' =>
        if c' = '}' then some ([], rest')
        else Option.map (fun p => (c :: p.1, p.2)) (takeKey (c' :: rest'))
    else
      Option.map (fun p => (c :: p.1, p.2)) (takeKey rest)

/-- Fuel-indexed substitution engine: structural recursion on the fuel.
When the fuel is at least the length of the template every recursive call
has enough fuel left (scanning a marker strictly shrinks the template). -/
def buildN (vars : List (List Char × List Char)) : Nat → List Char → List Char
  | _, [] => []
  | 0, c :: rest => c :: rest
  | fuel + 1, c :: rest =>
    if c = '{' then
      match rest with
      | [] => [c]
      | c' :: rest' =>
        if c' = '{' then
          match takeKey rest' with
          | none => c :: c' :: rest'
          | some (k, after) =>
            match lookupVar vars k with
            | some v => v ++ buildN vars fuel after
            | none => '{' :: '{' :: (k ++ '}' :: '}' :: buildN vars fuel after)
        else c :: buildN vars fuel (c' :: rest')
    else c :: buildN vars fuel rest

/-- Modelled from the spec: literal placeholder substitution of the
Prompt/Instruction Builder contract `build(templateSource, variables)`
(section 4.2).  Every occurrence of a recognized `\x7b\x7bkey\x7d\x7d`
marker is replaced with the corresponding value from `vars`; markers with
no matching key, and unclosed markers, are left unmodified. -/
def build (vars : List (List Char × List Char)) (template : List Char) :
    List Char :=
  buildN vars template.length template

/-- A decomposition of a template into literal chunks and markers, used to
state that substitution replaces every occurrence of every recognized
marker. -/
inductive Tok where
  | lit (s : List Char)
  | marker (k : List Char)

/-- The template text a decomposition denotes: markers written as
`\x7b\x7bkey\x7d\x7d`. -/
def flatToks : List Tok → List Char
  | [] => []
  | .lit s :: ts => s ++ flatToks ts
  | .marker k :: ts => '{' :: '{' :: (k ++ '}' :: '}' :: flatToks ts)

/-- The spec's substitution stated on the decomposition: every marker with
a matching key replaced by its value, every other marker left as
written. -/
def renderToks (vars : List (List Char × List Char)) : List Tok → List Char
  | [] => []
  | .lit s :: ts => s ++ renderToks vars ts
  | .marker k :: ts =>
    (match lookupVar vars k with
     | some v => v
     | none => '{' :: '{' :: (k ++ ['}', '}'])) ++ renderToks vars ts

/-- Well-formedness of a decomposition: literal chunks contain no opening
brace, keys contain no closing brace. -/
def WFtok : Tok → Prop
  | .lit s => '{' ∉ s
  | .marker k => '}' ∉ k

instance : DecidablePred WFtok := by
  intro t
  cases t with
  | lit s => exact inferInstanceAs (Decidable ('{' ∉ s))
  | marker k => exact inferInstanceAs (Decidable ('}' ∉ k))

/-! ## Agent Orchestration Loop

The loop that main.py:57 invokes (`Runner.run(agent, query, max_turns=10)`)
is not under src/; it is modelled from the spec (section 4.3). -/

/-- Modelled from the spec: one evidence entry in Run State — either a
search's results as received, or the record "search unavailable for query
X" left by a failed call (sections 4.3, 7). -/
inductive Evidence where
  | results (query : String) (entries : List SearchEntry)
  | unavailable (query : String)
  deriving DecidableEq, Repr

/-- Modelled from the spec: Run State (section 3) — instructions and query,
immutable during the run; the accumulated evidence; the turn counter. -/
structure RunState where
  instructions : String
  query : String
  evidence : List Evidence
  turns : Nat
  deriving DecidableEq, Repr

/-- Modelled from the spec: the decision taken at a Reasoning step
(section 4.3): either request tool calls or emit a Final Answer. -/
inductive Action where
  | toolCalls (queries : List String)
  | finalAnswer (text : String)
  deriving DecidableEq, Repr

/-- The external reasoning capability: a decision for every Run State. -/
def Oracle : Type := RunState → Action

/-- The search capability as the loop sees it: an outcome per query. -/
def SearchFn : Type := String → ToolOutcome

/-- The forced best-effort synthesis used at exhaustion: an answer drawn
from the accumulated Run State. -/
def Synth : Type := RunState → String

/-- Modelled from the spec: terminal states of a run (section 4.3) — Done
with a Final Answer, or Exhausted with a best-effort Final Answer. -/
inductive RunResult where
  | done (answer : String)
  | exhausted (answer : String)
  deriving DecidableEq, Repr

/-- What a finished run yields: its terminal result, its final Run State,
and every search query issued during the run, in order. -/
structure RunOutcome where
  result : RunResult
  final : RunState
  requests : List String
  deriving DecidableEq, Repr

/-- Modelled from the spec: how one completed search call is recorded in
Run State (sections 4.3, 7) — results appended as received; a failure
recorded as "search unavailable for query X". -/
def recordEvidence (search : SearchFn) (q : String) : Evidence :=
  match search q with
  | .ok rs => .results q rs
  | .err _ => .unavailable q

/-- Modelled from the spec: the ToolInvocation state (section 4.3): append
each result (or failure) to Run State, increment the turn counter by one
per completed tool-invocation turn. -/
def stepTool (search : SearchFn) (st : RunState) (qs : List String) : RunState :=
  { st with
    evidence := st.evidence ++ qs.map (recordEvidence search)
    turns := st.turns + 1 }

/-- Modelled from the spec: the bounded reasoning loop (section 4.3).
`budget` is the number of turns still allowed; when it reaches zero before
a Final Answer was produced, the loop stops issuing tool calls and forces a
best-effort synthesis from the accumulated state (Exhausted). -/
def runLoop (oracle : Oracle) (search : SearchFn) (synth : Synth) :
    Nat → RunState → RunOutcome
  | 0, st => { result := .exhausted (synth st), final := st, requests := [] }
  | budget + 1, st =>
    match oracle st with
    | .finalAnswer a => { result := .done a, final := st, requests := [] }
    | .toolCalls qs =>
      let out := runLoop oracle search synth budget (stepTool search st qs)
      { out with requests := qs ++ out.requests }

/-- Modelled from the spec: the initial Run State (Start, section 4.3). -/
def initState (instructions query : String) : RunState :=
  { instructions := instructions, query := query, evidence := [], turns := 0 }

/-- Modelled from the spec: the Session Driver boundary
`runOnce(query, instructions, tools, maxTurns)` (section 4.4); main.py:57
supplies `max_turns=10`. -/
def runOnce (oracle : Oracle) (search : SearchFn) (synth : Synth)
    (instructions query : String) (maxTurns : Nat) : RunOutcome :=
  runLoop oracle search synth maxTurns (initState instructions query)

/-- The sequence of Run States a run visits, in order. -/
def runTrace (oracle : Oracle) (search : SearchFn) :
    Nat → RunState → List RunState
  | 0, st => [st]
  | budget + 1, st =>
    match oracle st with
    | .finalAnswer _ => [st]
    | .toolCalls qs => st :: runTrace oracle search budget (stepTool search st qs)

/-! ## Configuration loading (spec sections 6 and 7) -/

/-- Modelled from the spec: the error taxonomy entries for a missing or
invalid credential and for a missing instruction template (section 7). -/
inductive ConfigurationError where
  | missingCredential
  | invalidCredential
  | missingTemplate
  deriving DecidableEq, Repr

/-- Modelled from the spec: the recognized configuration options
(section 6). -/
structure Config where
  search_api_credential : String
  instructions_source : List Char
  max_turns : Nat

/-- Modelled from the spec: configuration loading — a missing credential,
an invalid credential, or a missing instruction template source is a
`ConfigurationError` (section 7).  Which credentials the external search
capability accepts is opaque to the program, so validity is an abstract
predicate `validKey` supplied by that capability. -/
def loadConfig (validKey : String → Bool) (env : String → Option String)
    (templateSource : Option (List Char)) (maxTurns : Nat) :
    Except ConfigurationError Config :=
  match env "EXA_API_KEY" with
  | none => .error .missingCredential
  | some key =>
    if validKey key then
      match templateSource with
      | none => .error .missingTemplate
      | some t =>
        .ok { search_api_credential := key, instructions_source := t,
              max_turns := maxTurns }
    else .error .invalidCredential

/-- Modelled from the spec: starting a run (sections 4.4, 7, 8):
configuration is loaded first; on a `ConfigurationError` the failure is
surfaced immediately, the run never starts and no search query is issued;
otherwise the instructions are built from the template and the loop runs.
Returns the outcome and the list of search queries issued. -/
def startRun (validKey : String → Bool) (env : String → Option String)
    (templateSource : Option (List Char))
    (vars : List (List Char × List Char)) (oracle : Oracle)
    (search : SearchFn) (synth : Synth) (query : String) (maxTurns : Nat) :
    Except ConfigurationError RunResult × List String :=
  match loadConfig validKey env templateSource maxTurns with
  | .error e => (.error e, [])
  | .ok cfg =>
    let out := runOnce oracle search synth
      (String.mk (build vars cfg.instructions_source)) query cfg.max_turns
    (.ok out.result, out.requests)

/-! ## Lemmas about marker scanning -/

/-- Scanning `\x7d\x7d ++ rest` closes immediately with an empty key. -/
theorem takeKey_close (rest' : List Char) : takeKey ('}' :: '}' :: rest') = some ([], rest') := by
  simp [takeKey]

theorem takeKey_cons_ne (c : Char) (rest : List Char) (hc : c ≠ '}') :
    takeKey (c :: rest) = Option.map (fun p => (c :: p.1, p.2)) (takeKey rest) := by
  cases rest with
  | nil => simp [takeKey, hc]
  | cons c' rest' => simp [takeKey, hc]

theorem takeKey_brace_ne (c' : Char) (rest' : List Char) (hc' : c' ≠ '}') :
    takeKey ('}' :: c' :: rest') = Option.map (fun p => ('}' :: p.1, p.2)) (takeKey (c' :: rest')) := by
  simp [takeKey, hc']

theorem map_cons_eq (c : Char) (o : Option (List Char × List Char)) (k r : List Char)
    (h : Option.map (fun p => (c :: p.1, p.2)) o = some (k, r)) :
    ∃ k', o = some (k', r) ∧ k = c :: k' := by
  cases o with
  | none => simp at h
  | some p =>
    rw [Option.map_some'] at h
    simp only [Option.some.injEq, Prod.mk.injEq] at h
    exact ⟨p.1, by rw [← h.2], h.1.symm⟩

theorem takeKey_length (l : List Char) : ∀ k r, takeKey l = some (k, r) → r.length < l.length := by
  induction l using takeKey.induct with
  | case1 => intro k r h; simp [takeKey] at h
  | case2 => intro k r h; simp [takeKey] at h
  | case3 rest' =>
    intro k r h
    rw [takeKey_close] at h
    simp only [Option.some.injEq, Prod.mk.injEq] at h
    simp [← h.2]
    omega
  | case4 c' rest' hc' ih =>
    intro k r h
    rw [takeKey_brace_ne c' rest' hc'] at h
    obtain ⟨k', hk', rfl⟩ := map_cons_eq _ _ _ _ h
    have := ih k' r hk'
    simp only [List.length_cons] at this ⊢
    omega
  | case5 c' rest' hc' ih =>
    intro k r h
    rw [takeKey_cons_ne c' rest' hc'] at h
    obtain ⟨k', hk', rfl⟩ := map_cons_eq _ _ _ _ h
    have := ih k' r hk'
    simp only [List.length_cons] at this ⊢
    omega

theorem takeKey_eq (l : List Char) : ∀ k r, takeKey l = some (k, r) → l = k ++ '}' :: '}' :: r := by
  induction l using takeKey.induct with
  | case1 => intro k r h; simp [takeKey] at h
  | case2 => intro k r h; simp [takeKey] at h
  | case3 rest' =>
    intro k r h
    rw [takeKey_close] at h
    simp only [Option.some.injEq, Prod.mk.injEq] at h
    simp [← h.1, ← h.2]
  | case4 c' rest' hc' ih =>
    intro k r h
    rw [takeKey_brace_ne c' rest' hc'] at h
    obtain ⟨k', hk', rfl⟩ := map_cons_eq _ _ _ _ h
    have := ih k' r hk'
    simp [this]
  | case5 c' rest' hc' ih =>
    intro k r h
    rw [takeKey_cons_ne c' rest' hc'] at h
    obtain ⟨k', hk', rfl⟩ := map_cons_eq _ _ _ _ h
    have := ih k' r hk'
    simp [this]

theorem takeKey_append (k r : List Char) (hk : '}' ∉ k) :
    takeKey (k ++ '}' :: '}' :: r) = some (k, r) := by
  induction k with
  | nil => simp [takeKey_close]
  | cons c k' ih =>
    have hc : c ≠ '}' := fun h => hk (by simp [h])
    have hk' : '}' ∉ k' := fun h => hk (List.mem_cons_of_mem _ h)
    have hrec := ih hk'
    rw [List.cons_append, takeKey_cons_ne c _ hc, hrec, Option.map_some']

/-! ## Lemmas about substitution -/

/-- The engine is fuel-invariant once the fuel covers the template. -/
theorem buildN_le (vars : List (List Char × List Char)) :
    ∀ (fuel fuel' : Nat) (l : List Char), l.length ≤ fuel → l.length ≤ fuel' →
      buildN vars fuel l = buildN vars fuel' l := by
  intro fuel
  induction fuel with
  | zero =>
    intro fuel' l h h'
    have hl : l = [] := List.eq_nil_of_length_eq_zero (Nat.le_zero.mp h)
    subst hl
    cases fuel' <;> simp [buildN]
  | succ fuel ih =>
    intro fuel' l h h'
    cases l with
    | nil => cases fuel' <;> simp [buildN]
    | cons c rest =>
      cases fuel' with
      | zero => simp at h'
      | succ fuel'' =>
        simp only [List.length_cons] at h h'
        by_cases hc : c = '{'
        · subst hc
          cases rest with
          | nil => simp [buildN]
          | cons c' rest' =>
            simp only [List.length_cons] at h h'
            by_cases hc' : c' = '{'
            · subst hc'
              cases htk : takeKey rest' with
              | none => simp [buildN, htk]
              | some p =>
                obtain ⟨k, after⟩ := p
                have hlen := takeKey_length rest' k after htk
                cases hv : lookupVar vars k with
                | some v =>
                  simp only [buildN, reduceIte, htk, hv]
                  rw [ih fuel'' after (by omega) (by omega)]
                | none =>
                  simp only [buildN, reduceIte, htk, hv]
                  rw [ih fuel'' after (by omega) (by omega)]
            · simp only [buildN, reduceIte, if_neg hc']
              rw [ih fuel'' (c' :: rest') (by simp; omega) (by simp; omega)]
        · simp only [buildN, if_neg hc]
          rw [ih fuel'' rest (by omega) (by omega)]

/-- With an empty variables mapping the engine is the identity. -/
theorem buildN_empty : ∀ (fuel : Nat) (l : List Char), buildN [] fuel l = l := by
  intro fuel
  induction fuel with
  | zero => intro l; cases l <;> simp [buildN]
  | succ fuel ih =>
    intro l
    cases l with
    | nil => simp [buildN]
    | cons c rest =>
      by_cases hc : c = '{'
      · subst hc
        cases rest with
        | nil => simp [buildN]
        | cons c' rest' =>
          by_cases hc' : c' = '{'
          · subst hc'
            cases htk : takeKey rest' with
            | none => simp [buildN, htk]
            | some p =>
              obtain ⟨k, after⟩ := p
              have heq := takeKey_eq rest' k after htk
              simp only [buildN, reduceIte, htk, lookupVar, ih]
              rw [heq]
          · simp only [buildN, reduceIte, if_neg hc', ih]
      · simp only [buildN, if_neg hc, ih]

theorem build_nil (vars : List (List Char × List Char)) : build vars [] = [] :=
  rfl

theorem build_cons_ne (vars : List (List Char × List Char)) (c : Char)
    (rest : List Char) (hc : c ≠ '{') :
    build vars (c :: rest) = c :: build vars rest := by
  simp only [build, List.length_cons, buildN, if_neg hc]

theorem build_brace_nil (vars : List (List Char × List Char)) :
    build vars ['{'] = ['{'] := by
  simp [build, buildN]

theorem build_brace_ne (vars : List (List Char × List Char)) (c' : Char)
    (rest' : List Char) (hc' : c' ≠ '{') :
    build vars ('{' :: c' :: rest') = '{' :: build vars (c' :: rest') := by
  simp only [build, List.length_cons, buildN, reduceIte, if_neg hc']

theorem build_marker_none (vars : List (List Char × List Char))
    (rest' : List Char) (h : takeKey rest' = none) :
    build vars ('{' :: '{' :: rest') = '{' :: '{' :: rest' := by
  simp only [build, List.length_cons, buildN, reduceIte, h]

theorem build_marker_hit (vars : List (List Char × List Char))
    (rest' k after v : List Char) (h : takeKey rest' = some (k, after))
    (hv : lookupVar vars k = some v) :
    build vars ('{' :: '{' :: rest') = v ++ build vars after := by
  have hlen := takeKey_length rest' k after h
  simp only [build, List.length_cons, buildN, reduceIte, h, hv]
  rw [buildN_le vars (rest'.length + 1) after.length after (by omega) (by omega)]

theorem build_marker_miss (vars : List (List Char × List Char))
    (rest' k after : List Char) (h : takeKey rest' = some (k, after))
    (hv : lookupVar vars k = none) :
    build vars ('{' :: '{' :: rest') =
      '{' :: '{' :: (k ++ '}' :: '}' :: build vars after) := by
  have hlen := takeKey_length rest' k after h
  simp only [build, List.length_cons, buildN, reduceIte, h, hv]
  rw [buildN_le vars (rest'.length + 1) after.length after (by omega) (by omega)]

/-- With an empty variables mapping, substitution is the identity: every
marker is unknown and left unmodified. -/
theorem build_empty (t : List Char) : build [] t = t :=
  buildN_empty t.length t

/-- Substitution passes over a literal chunk without an opening brace. -/
theorem build_append_lit (vars : List (List Char × List Char))
    (s r : List Char) (hs : '{' ∉ s) :
    build vars (s ++ r) = s ++ build vars r := by
  induction s with
  | nil => simp
  | cons c s' ih =>
    have hc : c ≠ '{' := fun h => hs (by simp [h])
    have hs' : '{' ∉ s' := fun h => hs (List.mem_cons_of_mem _ h)
    rw [List.cons_append, build_cons_ne vars c _ hc, ih hs', List.cons_append]

/-- On a well-formed decomposition, substitution replaces every occurrence
of every recognized marker with its value and leaves every other marker as
written. -/
theorem build_flat (vars : List (List Char × List Char)) :
    ∀ toks, (∀ tok ∈ toks, WFtok tok) →
      build vars (flatToks toks) = renderToks vars toks := by
  intro toks
  induction toks with
  | nil => intro _; simp [flatToks, renderToks, build_nil]
  | cons tok ts ih =>
    intro h
    have htok := h tok (List.mem_cons_self _ _)
    have hts := fun t ht => h t (List.mem_cons_of_mem _ ht)
    cases tok with
    | lit s =>
      have hs : '{' ∉ s := htok
      simp only [flatToks, renderToks]
      rw [build_append_lit vars s _ hs, ih hts]
    | marker k =>
      have hk : '}' ∉ k := htok
      simp only [flatToks, renderToks]
      have htk := takeKey_append k (flatToks ts) hk
      cases hv : lookupVar vars k with
      | some v => rw [build_marker_hit vars _ k _ v htk hv, ih hts]
      | none =>
        rw [build_marker_miss vars _ k _ htk hv, ih hts]
        simp

/-! ## Helper lemmas about the loop -/

/-- The turn counter can only grow along a run, and grows by at most the
remaining budget. -/
theorem runLoop_turns (oracle : Oracle) (search : SearchFn) (synth : Synth) :
    ∀ (budget : Nat) (st : RunState),
      st.turns ≤ (runLoop oracle search synth budget st).final.turns ∧
      (runLoop oracle search synth budget st).final.turns ≤ st.turns + budget := by
  intro budget
  induction budget with
  | zero => intro st; simp [runLoop]
  | succ n ih =>
    intro st
    cases h : oracle st with
    | finalAnswer a => simp [runLoop, h]
    | toolCalls qs =>
      have := ih (stepTool search st qs)
      simp only [runLoop, h, stepTool] at this ⊢
      omega

/-- Evidence is only ever appended to. -/
theorem runLoop_evidence (oracle : Oracle) (search : SearchFn) (synth : Synth) :
    ∀ (budget : Nat) (st : RunState),
      ∃ t, (runLoop oracle search synth budget st).final.evidence =
        st.evidence ++ t := by
  intro budget
  induction budget with
  | zero => intro st; exact ⟨[], by simp [runLoop]⟩
  | succ n ih =>
    intro st
    cases h : oracle st with
    | finalAnswer a => exact ⟨[], by simp [runLoop, h]⟩
    | toolCalls qs =>
      obtain ⟨t, ht⟩ := ih (stepTool search st qs)
      refine ⟨qs.map (recordEvidence search) ++ t, ?_⟩
      simp only [runLoop, h, stepTool] at ht ⊢
      simp [ht]

/-- Instructions and query are immutable during a run. -/
theorem runLoop_frozen (oracle : Oracle) (search : SearchFn) (synth : Synth) :
    ∀ (budget : Nat) (st : RunState),
      (runLoop oracle search synth budget st).final.instructions =
        st.instructions ∧
      (runLoop oracle search synth budget st).final.query = st.query := by
  intro budget
  induction budget with
  | zero => intro st; simp [runLoop]
  | succ n ih =>
    intro st
    cases h : oracle st with
    | finalAnswer a => simp [runLoop, h]
    | toolCalls qs =>
      have := ih (stepTool search st qs)
      simp only [runLoop, h, stepTool] at this ⊢
      exact this

/-- An Exhausted answer is always the forced synthesis of the final Run
State. -/
theorem runLoop_exhausted_synth (oracle : Oracle) (search : SearchFn)
    (synth : Synth) :
    ∀ (budget : Nat) (st : RunState) (a : String),
      (runLoop oracle search synth budget st).result = .exhausted a →
      a = synth (runLoop oracle search synth budget st).final := by
  intro budget
  induction budget with
  | zero =>
    intro st a h
    simp only [runLoop, RunResult.exhausted.injEq] at h
    simp [runLoop, ← h]
  | succ n ih =>
    intro st a h
    cases hd : oracle st with
    | finalAnswer a' => simp [runLoop, hd] at h
    | toolCalls qs =>
      simp only [runLoop, hd] at h ⊢
      exact ih _ _ h

/-- A Done answer is the one the reasoning capability emitted at the final
Run State, which carries the full accumulated evidence. -/
theorem runLoop_done_oracle (oracle : Oracle) (search : SearchFn)
    (synth : Synth) :
    ∀ (budget : Nat) (st : RunState) (a : String),
      (runLoop oracle search synth budget st).result = .done a →
      oracle (runLoop oracle search synth budget st).final = .finalAnswer a := by
  intro budget
  induction budget with
  | zero => intro st a h; simp [runLoop] at h
  | succ n ih =>
    intro st a h
    cases hd : oracle st with
    | finalAnswer a' =>
      simp only [runLoop, hd, RunResult.done.injEq] at h ⊢
      rw [h]
    | toolCalls qs =>
      simp only [runLoop, hd] at h ⊢
      exact ih _ _ h

/-- Every run yields an answer: the result is Done or Exhausted with some
answer text. -/
theorem runLoop_has_answer (oracle : Oracle) (search : SearchFn)
    (synth : Synth) (budget : Nat) (st : RunState) :
    ∃ a, (runLoop oracle search synth budget st).result = .done a ∨
      (runLoop oracle search synth budget st).result = .exhausted a := by
  cases h : (runLoop oracle search synth budget st).result with
  | done a => exact ⟨a, Or.inl rfl⟩
  | exhausted a => exact ⟨a, Or.inr rfl⟩

/-- The trace of a run starts at its initial state. -/
theorem runTrace_cons (oracle : Oracle) (search : SearchFn) :
    ∀ (budget : Nat) (st : RunState),
      ∃ tl, runTrace oracle search budget st = st :: tl := by
  intro budget st
  cases budget with
  | zero => exact ⟨[], rfl⟩
  | succ n =>
    cases h : oracle st with
    | finalAnswer a => exact ⟨[], by simp [runTrace, h]⟩
    | toolCalls qs =>
      exact ⟨runTrace oracle search n (stepTool search st qs),
        by simp [runTrace, h]⟩

/-- Along the trace of a run, the turn counter never decreases. -/
theorem runTrace_mono (oracle : Oracle) (search : SearchFn) :
    ∀ (budget : Nat) (st : RunState),
      List.Chain' (fun a b => a.turns ≤ b.turns)
        (runTrace oracle search budget st) := by
  intro budget
  induction budget with
  | zero => intro st; simp [runTrace]
  | succ n ih =>
    intro st
    cases h : oracle st with
    | finalAnswer a => simp [runTrace, h]
    | toolCalls qs =>
      obtain ⟨tl, htl⟩ := runTrace_cons oracle search n (stepTool search st qs)
      simp only [runTrace, h, htl]
      rw [List.chain'_cons]
      constructor
      · simp [stepTool]
      · rw [← htl]; exact ih (stepTool search st qs)

/-- Every state on the trace stays within the initial turns plus the
budget. -/
theorem runTrace_turns_le (oracle : Oracle) (search : SearchFn) :
    ∀ (budget : Nat) (st st' : RunState),
      st' ∈ runTrace oracle search budget st →
      st'.turns ≤ st.turns + budget := by
  intro budget
  induction budget with
  | zero =>
    intro st st' h
    simp only [runTrace, List.mem_singleton] at h
    simp [h]
  | succ n ih =>
    intro st st' h
    cases hd : oracle st with
    | finalAnswer a =>
      simp only [runTrace, hd, List.mem_singleton] at h
      simp [h]
    | toolCalls qs =>
      simp only [runTrace, hd, List.mem_cons] at h
      cases h with
      | inl h => simp [h]
      | inr h =>
        have := ih (stepTool search st qs) st' h
        simp only [stepTool] at this
        omega

/-- If every answer the reasoning capability emits is non-empty and forced
synthesis is non-empty, every run's answer is non-empty. -/
theorem runLoop_answer_ne (oracle : Oracle) (search : SearchFn) (synth : Synth)
    (ho : ∀ st a, oracle st = .finalAnswer a → a ≠ "")
    (hs : ∀ st, synth st ≠ "") :
    ∀ (budget : Nat) (st : RunState),
      ∃ a, ((runLoop oracle search synth budget st).result = .done a ∨
            (runLoop oracle search synth budget st).result = .exhausted a) ∧
           a ≠ "" := by
  intro budget st
  obtain ⟨a, ha⟩ := runLoop_has_answer oracle search synth budget st
  refine ⟨a, ha, ?_⟩
  cases ha with
  | inl ha => exact ho _ _ (runLoop_done_oracle oracle search synth budget st a ha)
  | inr ha =>
    rw [runLoop_exhausted_synth oracle search synth budget st a ha]
    exact hs _

/-! ## The claims -/

/-- C1: for every valid non-empty query, a run terminates either in Done
with a non-empty Final Answer or in Exhausted with a best-effort Final
Answer synthesized from the accumulated evidence; at budget zero the loop
issues no tool calls and forces final synthesis; a run never terminates
with no answer at all. -/
theorem runOnce_always_answers (oracle : Oracle) (search : SearchFn)
    (synth : Synth) (instructions query : String) (maxTurns : Nat)
    (ho : ∀ st a, oracle st = .finalAnswer a → a ≠ "")
    (hs : ∀ st, synth st ≠ "") :
    (∃ a, ((runOnce oracle search synth instructions query maxTurns).result =
             .done a ∨
           (runOnce oracle search synth instructions query maxTurns).result =
             .exhausted a) ∧
          a ≠ "") ∧
    (∀ a, (runOnce oracle search synth instructions query maxTurns).result =
            .exhausted a →
       a = synth (runOnce oracle search synth instructions query maxTurns).final) ∧
    (∀ st, (runLoop oracle search synth 0 st).requests = [] ∧
           (runLoop oracle search synth 0 st).result = .exhausted (synth st)) := by
  refine ⟨runLoop_answer_ne oracle search synth ho hs maxTurns _,
    fun a h => runLoop_exhausted_synth oracle search synth maxTurns _ a h,
    fun st => ⟨rfl, rfl⟩⟩

/-- Witness for C1 at a concrete reasoning capability, failing search and
synthesis. -/
theorem runOnce_always_answers_witness :
    ∃ a, ((runOnce (fun _ => .finalAnswer "ok") (fun _ => .err "net")
            (fun _ => "best effort") "instr" "query" 10).result = .done a ∨
          (runOnce (fun _ => .finalAnswer "ok") (fun _ => .err "net")
            (fun _ => "best effort") "instr" "query" 10).result = .exhausted a) ∧
         a ≠ "" :=
  (runOnce_always_answers (fun _ => .finalAnswer "ok") (fun _ => .err "net")
    (fun _ => "best effort") "instr" "query" 10
    (fun _ a h => by cases h; decide)
    (fun _ => show ("best effort" : String) ≠ "" by decide)).1

/-- C2: within every run the turn counter is monotonically non-decreasing
and never exceeds the configured maximum of 10 turns, on every execution
path of the loop. -/
theorem turn_counter_bounded (oracle : Oracle) (search : SearchFn)
    (synth : Synth) (instructions query : String) :
    List.Chain' (fun a b => a.turns ≤ b.turns)
      (runTrace oracle search 10 (initState instructions query)) ∧
    (∀ st ∈ runTrace oracle search 10 (initState instructions query),
       st.turns ≤ 10) ∧
    (runOnce oracle search synth instructions query 10).final.turns ≤ 10 := by
  refine ⟨runTrace_mono oracle search 10 _, fun st h => ?_, ?_⟩
  · have := runTrace_turns_le oracle search 10 _ st h
    simpa [initState] using this
  · have := (runLoop_turns oracle search synth 10 (initState instructions query)).2
    simpa [initState, runOnce] using this

/-- Witness for C2 at a concrete reasoning capability. -/
theorem turn_counter_bounded_witness :
    (initState "instructions" "query").turns ≤ 10 :=
  (turn_counter_bounded (fun _ => .finalAnswer "done") (fun _ => .err "off")
      (fun _ => "fallback") "instructions" "query").2.1
    (initState "instructions" "query") (by decide)

/-- C3: a Search Tool Adapter failure on a turn does not abort the run: it
is recorded in Run State as "search unavailable for query X", the loop
proceeds, and the run reaches a terminal state having completed at least
that turn. -/
theorem search_failure_not_fatal (oracle : Oracle) (search : SearchFn)
    (synth : Synth) (budget : Nat) (st : RunState) (q cause : String)
    (qs : List String) (hf : search q = .err cause)
    (hd : oracle st = .toolCalls qs) (hq : q ∈ qs) :
    Evidence.unavailable q ∈
      (runLoop oracle search synth (budget + 1) st).final.evidence ∧
    st.turns + 1 ≤ (runLoop oracle search synth (budget + 1) st).final.turns ∧
    ∃ a, (runLoop oracle search synth (budget + 1) st).result = .done a ∨
         (runLoop oracle search synth (budget + 1) st).result = .exhausted a := by
  have h1 : (runLoop oracle search synth (budget + 1) st).final =
      (runLoop oracle search synth budget (stepTool search st qs)).final := by
    simp [runLoop, hd]
  have hrec : recordEvidence search q = .unavailable q := by
    simp [recordEvidence, hf]
  have hmem : Evidence.unavailable q ∈ (stepTool search st qs).evidence := by
    simp only [stepTool]
    refine List.mem_append_right _ ?_
    rw [← hrec]
    exact List.mem_map_of_mem _ hq
  obtain ⟨t, ht⟩ := runLoop_evidence oracle search synth budget (stepTool search st qs)
  refine ⟨?_, ?_, runLoop_has_answer oracle search synth (budget + 1) st⟩
  · rw [h1, ht]
    exact List.mem_append_left _ hmem
  · rw [h1]
    have := (runLoop_turns oracle search synth budget (stepTool search st qs)).1
    simpa [stepTool] using this

/-- Witness for C3: a failing search on the first turn of a concrete
run. -/
theorem search_failure_not_fatal_witness :
    Evidence.unavailable "x" ∈
      (runLoop (fun _ => .toolCalls ["x"]) (fun _ => .err "down")
        (fun _ => "syn") (1 + 1) (initState "i" "q")).final.evidence :=
  (search_failure_not_fatal (fun _ => .toolCalls ["x"]) (fun _ => .err "down")
    (fun _ => "syn") 1 (initState "i" "q") "x" "down" ["x"] rfl rfl
    (by decide)).1

/-- C4: a missing search credential, a present-but-invalid search
credential, or a missing instruction template source is a
ConfigurationError, fatal and surfaced immediately: the run never starts
and zero search queries are issued before the failure is reported. -/
theorem configuration_error_fails_fast (validKey : String → Bool)
    (env : String → Option String) (templateSource : Option (List Char))
    (vars : List (List Char × List Char)) (oracle : Oracle)
    (search : SearchFn) (synth : Synth) (query : String) (maxTurns : Nat) :
    (env "EXA_API_KEY" = none →
      startRun validKey env templateSource vars oracle search synth query
          maxTurns =
        (.error .missingCredential, [])) ∧
    (∀ key, env "EXA_API_KEY" = some key → validKey key = false →
      startRun validKey env templateSource vars oracle search synth query
          maxTurns =
        (.error .invalidCredential, [])) ∧
    (templateSource = none →
      ∃ e, startRun validKey env templateSource vars oracle search synth query
          maxTurns =
        (.error e, [])) := by
  refine ⟨?_, ?_, ?_⟩
  · intro h
    simp [startRun, loadConfig, h]
  · intro key hk hv
    simp [startRun, loadConfig, hk, hv]
  · intro h
    cases hk : env "EXA_API_KEY" with
    | none => exact ⟨.missingCredential, by simp [startRun, loadConfig, hk]⟩
    | some key =>
      cases hv : validKey key with
      | false =>
        exact ⟨.invalidCredential, by simp [startRun, loadConfig, hk, hv]⟩
      | true =>
        exact ⟨.missingTemplate, by simp [startRun, loadConfig, hk, hv, h]⟩

/-- Witness for C4: an environment with no credential, and one whose
credential the search capability rejects, both fail fast with zero search
queries issued. -/
theorem configuration_error_fails_fast_witness :
    startRun (fun _ => true) (fun _ => none) (some []) []
      (fun _ => .finalAnswer "a") (fun _ => .err "e") (fun _ => "s") "q" 10 =
      (.error .missingCredential, []) ∧
    startRun (fun _ => false) (fun _ => some "BADKEY") (some []) []
      (fun _ => .finalAnswer "a") (fun _ => .err "e") (fun _ => "s") "q" 10 =
      (.error .invalidCredential, []) :=
  ⟨(configuration_error_fails_fast (fun _ => true) (fun _ => none) (some []) []
      (fun _ => .finalAnswer "a") (fun _ => .err "e") (fun _ => "s")
      "q" 10).1 rfl,
   (configuration_error_fails_fast (fun _ => false) (fun _ => some "BADKEY")
      (some []) [] (fun _ => .finalAnswer "a") (fun _ => .err "e")
      (fun _ => "s") "q" 10).2.1 "BADKEY" rfl rfl⟩

/-- C5: substitution replaces every occurrence of each recognized marker
with its value, leaves markers with no matching key unmodified without an
error, and with no variables is the identity on every template. -/
theorem build_replaces_markers (vars : List (List Char × List Char)) :
    (∀ t, build [] t = t) ∧
    (∀ toks, (∀ tok ∈ toks, WFtok tok) →
      build vars (flatToks toks) = renderToks vars toks) ∧
    build [(['d'], ['T'])] ("\x7b\x7bd\x7d\x7d and \x7b\x7bd\x7d\x7d".toList) =
      "T and T".toList ∧
    build [] ("Hello \x7b\x7bx\x7d\x7d".toList) =
      "Hello \x7b\x7bx\x7d\x7d".toList := by
  refine ⟨build_empty, build_flat vars, ?_, build_empty _⟩
  decide

/-- Witness for C5 at a concrete decomposition. -/
theorem build_replaces_markers_witness :
    build [(['a'], ['B'])] (flatToks [.marker ['a']]) =
      renderToks [(['a'], ['B'])] [.marker ['a']] :=
  (build_replaces_markers [(['a'], ['B'])]).2.1 [.marker ['a']] (by decide)

/-- C6: one adapter call issues exactly one outbound request, even when the
service fails (no internal retry), and has no other effect: no caching and
no mutation of the module state. -/
theorem adapter_single_request (service : Service) (m : ModuleState)
    (q : String) :
    (exa_web_search service m q).requests =
      [{ apiKey := m.exa.api_key, query := q, type := "auto",
         highlights := true }] ∧
    (exa_web_search service m q).requests.length = 1 ∧
    (exa_web_search service m q).module = m ∧
    (∀ cause,
      service { apiKey := m.exa.api_key, query := q, type := "auto",
                highlights := true } = .err cause →
      (exa_web_search service m q).response = .err cause ∧
      (exa_web_search service m q).requests.length = 1) := by
  refine ⟨rfl, rfl, rfl, fun cause h => ⟨?_, rfl⟩⟩
  simp [exa_web_search, search_and_contents, h]

/-- Witness for C6: a failing service still gets exactly one request. -/
theorem adapter_single_request_witness :
    (exa_web_search (fun _ => .err "netfail")
      (importModule (fun _ => some "KEY") "2026-10-12") "agents").response =
        .err "netfail" ∧
    (exa_web_search (fun _ => .err "netfail")
      (importModule (fun _ => some "KEY") "2026-10-12") "agents").requests.length =
        1 :=
  (adapter_single_request (fun _ => .err "netfail")
    (importModule (fun _ => some "KEY") "2026-10-12") "agents").2.2.2
    "netfail" rfl

/-- C7: search results pass through unmodified — the adapter returns the
service's response verbatim, each turn's result set is appended to Run
State as received, evidence is only ever appended across turns, and the
answer at Done is emitted by the reasoning step at the final Run State,
which carries the full accumulated history. -/
theorem results_passed_through (service : Service) (m : ModuleState)
    (q : String) (oracle : Oracle) (search : SearchFn) (synth : Synth)
    (budget : Nat) (st : RunState) :
    (exa_web_search service m q).response =
      service { apiKey := m.exa.api_key, query := q, type := "auto",
                highlights := true } ∧
    (∀ rs, search q = .ok rs → recordEvidence search q = .results q rs) ∧
    (∀ qs, oracle st = .toolCalls qs →
      (stepTool search st qs).evidence =
        st.evidence ++ qs.map (recordEvidence search)) ∧
    (∃ t, (runLoop oracle search synth budget st).final.evidence =
       st.evidence ++ t) ∧
    (∀ a, (runLoop oracle search synth budget st).result = .done a →
       oracle (runLoop oracle search synth budget st).final = .finalAnswer a) := by
  refine ⟨rfl, ?_, fun qs _ => rfl,
    runLoop_evidence oracle search synth budget st,
    fun a h => runLoop_done_oracle oracle search synth budget st a h⟩
  intro rs h
  simp [recordEvidence, h]

/-- Witness for C7: a successful search is recorded as its result list,
as received. -/
theorem results_passed_through_witness :
    recordEvidence (fun _ => .ok []) "stable fact" = .results "stable fact" [] :=
  (results_passed_through (fun _ => .err "-") (importModule (fun _ => none) "t")
    "stable fact" (fun _ => .finalAnswer "a") (fun _ => .ok []) (fun _ => "s") 3
    (initState "i" "q")).2.1 [] rfl

/-- C8: instruction construction is pure and deterministic — identical
inputs give the identical instruction string — and instructions are built
once per run and immutable during the run. -/
theorem instructions_pure_and_immutable (d d' : String) (oracle : Oracle)
    (search : SearchFn) (synth : Synth) (budget : Nat) (query : String)
    (hd : d = d') :
    agentInstructions d = agentInstructions d' ∧
    (∀ st, (runLoop oracle search synth budget st).final.instructions =
       st.instructions) ∧
    (runOnce oracle search synth (agentInstructions d) query
        budget).final.instructions = agentInstructions d := by
  refine ⟨congrArg agentInstructions hd,
    fun st => (runLoop_frozen oracle search synth budget st).1, ?_⟩
  exact (runLoop_frozen oracle search synth budget
    (initState (agentInstructions d) query)).1

/-- Witness for C8 at a concrete datetime and run. -/
theorem instructions_pure_and_immutable_witness :
    agentInstructions "2026-10-12 00:00" = agentInstructions "2026-10-12 00:00" :=
  (instructions_pure_and_immutable "2026-10-12 00:00" "2026-10-12 00:00"
    (fun _ => .finalAnswer "a") (fun _ => .err "e") (fun _ => "s") 10 "q"
    rfl).1

/-- C9: the adapter is total over all query strings and validates nothing:
every query, the empty string included, is forwarded verbatim with the
fixed parameters type="auto" and highlights=True. -/
theorem adapter_total_no_validation (service : Service) (m : ModuleState)
    (q : String) :
    (exa_web_search service m q).requests =
      [{ apiKey := m.exa.api_key, query := q, type := "auto",
         highlights := true }] ∧
    (exa_web_search service m q).response =
      service { apiKey := m.exa.api_key, query := q, type := "auto",
                highlights := true } ∧
    (exa_web_search service m "").requests =
      [{ apiKey := m.exa.api_key, query := "", type := "auto",
         highlights := true }] ∧
    (exa_web_search service m "").response =
      service { apiKey := m.exa.api_key, query := "", type := "auto",
                highlights := true } :=
  ⟨rfl, rfl, rfl, rfl⟩

/-- C10: the search client is built exactly once at import time from
EXA_API_KEY; every adapter call uses that same client and credential, so
mutating the environment after import never affects any search call. -/
theorem client_singleton_env_immune (env env' : String → Option String)
    (now : String) (service : Service) (q : String) :
    (importWorld env now).module.exa = { api_key := env "EXA_API_KEY" } ∧
    (setEnv (importWorld env now) env').module = (importWorld env now).module ∧
    exa_web_search service (setEnv (importWorld env now) env').module q =
      exa_web_search service (importWorld env now).module q ∧
    (∀ r ∈ (exa_web_search service
        (setEnv (importWorld env now) env').module q).requests,
       r.apiKey = env "EXA_API_KEY") := by
  refine ⟨rfl, rfl, rfl, fun r hr => ?_⟩
  simp only [exa_web_search, search_and_contents, setEnv, importWorld,
    importModule, List.mem_singleton] at hr
  subst hr
  rfl

/-- Witness for C10: after an environment change, a call still carries
the credential sampled at import. -/
theorem client_singleton_env_immune_witness :
    ({ apiKey := some "K0", query := "q", type := "auto",
       highlights := true } : SearchRequest).apiKey = some "K0" :=
  (client_singleton_env_immune (fun _ => some "K0") (fun _ => some "K1") "now"
    (fun _ => .ok []) "q").2.2.2
    { apiKey := some "K0", query := "q", type := "auto", highlights := true }
    (by decide)

end ResearchAgent
